import Mathlib

/-
Verification of the MMC/SD register decoding code in os/hal/src/hal_mmcsd.c.

A register buffer (a C `const uint32_t *` / `const uint8_t *`) is embedded as a
function from an index to the stored word/byte value; callers that need the
32-bit-word invariant state it as a hypothesis (every word `< 2 ^ 32`).
`uint32_t` arithmetic is rendered as `Nat` arithmetic with an explicit
`% 2 ^ 32` wherever the C expression truncates to 32 bits.
-/

/-- Shallow embedding of `_mmcsd_get_slice` (hal_mmcsd.c lines 64-82).
`e` and `s` are the source parameters `end` and `start` (inclusive bit
offsets); `end` is a reserved word in Lean.  The local variables `startidx`,
`startoff`, `endidx`, `endmask` mirror the source.  The `debug` check of the
source (`end >= start && end - start < 32`) becomes a hypothesis of the
theorems below. -/
def mmcsd_get_slice (data : Nat → Nat) (e s : Nat) : Nat :=
  let startidx := s / 32
  let startoff := s % 32
  let endidx := e / 32
  let endmask := (1 <<< ((e % 32) + 1)) - 1
  if startidx < endidx then
    (data startidx >>> startoff) |||
      (((data endidx &&& endmask) <<< (32 - startoff)) % 2 ^ 32)
  else
    (data startidx &&& endmask) >>> startoff

/-- Modelled from the spec: the slice-table macro `MMCSD_CSD_10_CSD_STRUCTURE_SLICE`
from hal_mmcsd.h (the header is not part of the sources provided); the pair is
(`end`, `start`).  The CSD-structure field is the top 2 bits of the 128-bit CSD
register, per the fixed standard-defined bit-offset table the spec requires to
be reproduced bit-for-bit. -/
def MMCSD_CSD_10_CSD_STRUCTURE_SLICE : Nat × Nat := (127, 126)

/-- Modelled from the spec: macro `MMCSD_CSD_10_C_SIZE_SLICE` from hal_mmcsd.h
(CSD 1.0 `c_size`, 12 bits at offsets 62..73). -/
def MMCSD_CSD_10_C_SIZE_SLICE : Nat × Nat := (73, 62)

/-- Modelled from the spec: macro `MMCSD_CSD_10_C_SIZE_MULT_SLICE` from
hal_mmcsd.h (CSD 1.0 `c_size_mult`, 3 bits at offsets 47..49). -/
def MMCSD_CSD_10_C_SIZE_MULT_SLICE : Nat × Nat := (49, 47)

/-- Modelled from the spec: macro `MMCSD_CSD_10_READ_BL_LEN_SLICE` from
hal_mmcsd.h (CSD 1.0 `read_bl_len`, 4 bits at offsets 80..83). -/
def MMCSD_CSD_10_READ_BL_LEN_SLICE : Nat × Nat := (83, 80)

/-- Modelled from the spec: macro `MMCSD_CSD_20_C_SIZE_SLICE` from hal_mmcsd.h
(CSD 2.0 `c_size`, 22 bits at offsets 48..69). -/
def MMCSD_CSD_20_C_SIZE_SLICE : Nat × Nat := (69, 48)

/-- Shallow embedding of `_mmcsd_get_capacity` (hal_mmcsd.c lines 95-114).
The C `switch` on the extracted structure-version value becomes a `match`;
the two `uint32_t` shifts of the version-0 formula and the version-1
multiplication each truncate modulo `2 ^ 32`. -/
def mmcsd_get_capacity (csd : Nat → Nat) : Nat :=
  match mmcsd_get_slice csd MMCSD_CSD_10_CSD_STRUCTURE_SLICE.1
      MMCSD_CSD_10_CSD_STRUCTURE_SLICE.2 with
  | 0 =>
    let a := mmcsd_get_slice csd MMCSD_CSD_10_C_SIZE_SLICE.1
      MMCSD_CSD_10_C_SIZE_SLICE.2
    let b := mmcsd_get_slice csd MMCSD_CSD_10_C_SIZE_MULT_SLICE.1
      MMCSD_CSD_10_C_SIZE_MULT_SLICE.2
    let c := mmcsd_get_slice csd MMCSD_CSD_10_READ_BL_LEN_SLICE.1
      MMCSD_CSD_10_READ_BL_LEN_SLICE.2
    ((((a + 1) <<< (b + 2)) % 2 ^ 32) <<< (c - 9)) % 2 ^ 32
  | 1 =>
    (1024 * (mmcsd_get_slice csd MMCSD_CSD_20_C_SIZE_SLICE.1
      MMCSD_CSD_20_C_SIZE_SLICE.2 + 1)) % 2 ^ 32
  | _ => 0

/-- Shallow embedding of `_mmcsd_get_capacity_ext` (hal_mmcsd.c lines 126-134).
The four byte reads at fixed offsets 212..215 are combined with shifts and
additions exactly as in the source; the conversion of the result to the
`uint32_t` return value truncates modulo `2 ^ 32`. -/
def mmcsd_get_capacity_ext (ext_csd : Nat → Nat) : Nat :=
  ((ext_csd 215 <<< 24) + (ext_csd 214 <<< 16) + (ext_csd 213 <<< 8) +
    ext_csd 212) % 2 ^ 32

/-- Bit `k` of a register buffer: bit `k % 32` of word `k / 32` (bit 0 is the
LSb of the first word, numbering increasing monotonically across word
boundaries, as the data model of the spec prescribes). -/
def bufBit (data : Nat → Nat) (k : Nat) : Bool :=
  (data (k / 32)).testBit (k % 32)

/-- Value of the first `n` words of a register buffer read as one natural
number, word `i` contributing at bit offset `32 * i`. -/
def wordsVal (data : Nat → Nat) : Nat → Nat
  | 0 => 0
  | n + 1 => wordsVal data n + data n * 2 ^ (32 * n)

/-- Byte `m` of a register buffer of 32-bit words: bits `8*m .. 8*m+7`. -/
def byteAt (data : Nat → Nat) (m : Nat) : Nat :=
  (data (m / 4) >>> (8 * (m % 4))) % 2 ^ 8

/-- The buffer obtained by inserting value `v` at bit offset `s` of an
otherwise zeroed buffer of 32-bit words (the insertion operation of the
round-trip property in the spec, section 8). -/
def insert_slice (v s : Nat) : Nat → Nat :=
  fun i => ((v <<< s) >>> (32 * i)) % 2 ^ 32

/-- Modelled from the spec: the SD CID slice-table macros
`MMCSD_CID_SDC_*_SLICE` from hal_mmcsd.h (header not in the provided
sources); each value is the (`end`, `start`) bit-offset pair of the fixed
standard-defined table: CRC, manufacture month and year, manufacturer id,
OEM id, five consecutive one-byte product-name slices, product revision
minor/major, and serial number. -/
def MMCSD_CID_SDC_CRC_SLICE : Nat × Nat := (7, 1)

/-- Modelled from the spec: see `MMCSD_CID_SDC_CRC_SLICE`. -/
def MMCSD_CID_SDC_MDT_M_SLICE : Nat × Nat := (11, 8)

/-- Modelled from the spec: see `MMCSD_CID_SDC_CRC_SLICE`. -/
def MMCSD_CID_SDC_MDT_Y_SLICE : Nat × Nat := (19, 12)

/-- Modelled from the spec: see `MMCSD_CID_SDC_CRC_SLICE`. -/
def MMCSD_CID_SDC_PSN_SLICE : Nat × Nat := (55, 24)

/-- Modelled from the spec: see `MMCSD_CID_SDC_CRC_SLICE`. -/
def MMCSD_CID_SDC_PRV_M_SLICE : Nat × Nat := (59, 56)

/-- Modelled from the spec: see `MMCSD_CID_SDC_CRC_SLICE`. -/
def MMCSD_CID_SDC_PRV_N_SLICE : Nat × Nat := (63, 60)

/-- Modelled from the spec: see `MMCSD_CID_SDC_CRC_SLICE`. -/
def MMCSD_CID_SDC_PNM0_SLICE : Nat × Nat := (71, 64)

/-- Modelled from the spec: see `MMCSD_CID_SDC_CRC_SLICE`. -/
def MMCSD_CID_SDC_PNM1_SLICE : Nat × Nat := (79, 72)

/-- Modelled from the spec: see `MMCSD_CID_SDC_CRC_SLICE`. -/
def MMCSD_CID_SDC_PNM2_SLICE : Nat × Nat := (87, 80)

/-- Modelled from the spec: see `MMCSD_CID_SDC_CRC_SLICE`. -/
def MMCSD_CID_SDC_PNM3_SLICE : Nat × Nat := (95, 88)

/-- Modelled from the spec: see `MMCSD_CID_SDC_CRC_SLICE`. -/
def MMCSD_CID_SDC_PNM4_SLICE : Nat × Nat := (103, 96)

/-- Modelled from the spec: see `MMCSD_CID_SDC_CRC_SLICE`. -/
def MMCSD_CID_SDC_OID_SLICE : Nat × Nat := (119, 104)

/-- Modelled from the spec: see `MMCSD_CID_SDC_CRC_SLICE`. -/
def MMCSD_CID_SDC_MID_SLICE : Nat × Nat := (127, 120)

/-- Modelled from the spec: the MMC CID slice-table macros
`MMCSD_CID_MMC_*_SLICE` from hal_mmcsd.h; six consecutive one-byte
product-name slices, and a one-byte manufacture date with the year nibble
below the month nibble. -/
def MMCSD_CID_MMC_CRC_SLICE : Nat × Nat := (7, 1)

/-- Modelled from the spec: see `MMCSD_CID_MMC_CRC_SLICE`. -/
def MMCSD_CID_MMC_MDT_Y_SLICE : Nat × Nat := (11, 8)

/-- Modelled from the spec: see `MMCSD_CID_MMC_CRC_SLICE`. -/
def MMCSD_CID_MMC_MDT_M_SLICE : Nat × Nat := (15, 12)

/-- Modelled from the spec: see `MMCSD_CID_MMC_CRC_SLICE`. -/
def MMCSD_CID_MMC_PSN_SLICE : Nat × Nat := (47, 16)

/-- Modelled from the spec: see `MMCSD_CID_MMC_CRC_SLICE`. -/
def MMCSD_CID_MMC_PRV_M_SLICE : Nat × Nat := (51, 48)

/-- Modelled from the spec: see `MMCSD_CID_MMC_CRC_SLICE`. -/
def MMCSD_CID_MMC_PRV_N_SLICE : Nat × Nat := (55, 52)

/-- Modelled from the spec: see `MMCSD_CID_MMC_CRC_SLICE`. -/
def MMCSD_CID_MMC_PNM0_SLICE : Nat × Nat := (63, 56)

/-- Modelled from the spec: see `MMCSD_CID_MMC_CRC_SLICE`. -/
def MMCSD_CID_MMC_PNM1_SLICE : Nat × Nat := (71, 64)

/-- Modelled from the spec: see `MMCSD_CID_MMC_CRC_SLICE`. -/
def MMCSD_CID_MMC_PNM2_SLICE : Nat × Nat := (79, 72)

/-- Modelled from the spec: see `MMCSD_CID_MMC_CRC_SLICE`. -/
def MMCSD_CID_MMC_PNM3_SLICE : Nat × Nat := (87, 80)

/-- Modelled from the spec: see `MMCSD_CID_MMC_CRC_SLICE`. -/
def MMCSD_CID_MMC_PNM4_SLICE : Nat × Nat := (95, 88)

/-- Modelled from the spec: see `MMCSD_CID_MMC_CRC_SLICE`. -/
def MMCSD_CID_MMC_PNM5_SLICE : Nat × Nat := (103, 96)

/-- Modelled from the spec: see `MMCSD_CID_MMC_CRC_SLICE`. -/
def MMCSD_CID_MMC_OID_SLICE : Nat × Nat := (119, 104)

/-- Modelled from the spec: see `MMCSD_CID_MMC_CRC_SLICE`. -/
def MMCSD_CID_MMC_MID_SLICE : Nat × Nat := (127, 120)

/-- The decoded SD CID record (`unpacked_sdc_cid_t`); the `pnm` array of the
C structure is embedded as a function from array position to stored byte. -/
structure unpacked_sdc_cid_t where
  crc : Nat
  mdt_y : Nat
  mdt_m : Nat
  mid : Nat
  oid : Nat
  pnm : Nat → Nat
  prv_n : Nat
  prv_m : Nat
  psn : Nat

/-- The decoded MMC CID record (`unpacked_mmc_cid_t`). -/
structure unpacked_mmc_cid_t where
  crc : Nat
  mdt_y : Nat
  mdt_m : Nat
  mid : Nat
  oid : Nat
  pnm : Nat → Nat
  prv_n : Nat
  prv_m : Nat
  psn : Nat

/-- Shallow embedding of `_mmcsd_unpack_sdc_cid` (hal_mmcsd.c lines 144-164);
the input is the device's `cid` word array and the result is the populated
output structure (the C function writes through an out-pointer).  The five
product-name assignments `pnm[4] := PNM0, ..., pnm[0] := PNM4` become the
match inside `pnm`; array cells never assigned are 0. -/
def _mmcsd_unpack_sdc_cid (cid : Nat → Nat) : unpacked_sdc_cid_t where
  crc := mmcsd_get_slice cid MMCSD_CID_SDC_CRC_SLICE.1 MMCSD_CID_SDC_CRC_SLICE.2
  mdt_y := mmcsd_get_slice cid MMCSD_CID_SDC_MDT_Y_SLICE.1 MMCSD_CID_SDC_MDT_Y_SLICE.2 + 2000
  mdt_m := mmcsd_get_slice cid MMCSD_CID_SDC_MDT_M_SLICE.1 MMCSD_CID_SDC_MDT_M_SLICE.2
  mid := mmcsd_get_slice cid MMCSD_CID_SDC_MID_SLICE.1 MMCSD_CID_SDC_MID_SLICE.2
  oid := mmcsd_get_slice cid MMCSD_CID_SDC_OID_SLICE.1 MMCSD_CID_SDC_OID_SLICE.2
  pnm := fun p =>
    match p with
    | 4 => mmcsd_get_slice cid MMCSD_CID_SDC_PNM0_SLICE.1 MMCSD_CID_SDC_PNM0_SLICE.2
    | 3 => mmcsd_get_slice cid MMCSD_CID_SDC_PNM1_SLICE.1 MMCSD_CID_SDC_PNM1_SLICE.2
    | 2 => mmcsd_get_slice cid MMCSD_CID_SDC_PNM2_SLICE.1 MMCSD_CID_SDC_PNM2_SLICE.2
    | 1 => mmcsd_get_slice cid MMCSD_CID_SDC_PNM3_SLICE.1 MMCSD_CID_SDC_PNM3_SLICE.2
    | 0 => mmcsd_get_slice cid MMCSD_CID_SDC_PNM4_SLICE.1 MMCSD_CID_SDC_PNM4_SLICE.2
    | _ => 0
  prv_n := mmcsd_get_slice cid MMCSD_CID_SDC_PRV_N_SLICE.1 MMCSD_CID_SDC_PRV_N_SLICE.2
  prv_m := mmcsd_get_slice cid MMCSD_CID_SDC_PRV_M_SLICE.1 MMCSD_CID_SDC_PRV_M_SLICE.2
  psn := mmcsd_get_slice cid MMCSD_CID_SDC_PSN_SLICE.1 MMCSD_CID_SDC_PSN_SLICE.2

/-- Shallow embedding of `_mmcsd_unpack_mmc_cid` (hal_mmcsd.c lines 174-195);
six product-name assignments `pnm[5] := PNM0, ..., pnm[0] := PNM5`. -/
def _mmcsd_unpack_mmc_cid (cid : Nat → Nat) : unpacked_mmc_cid_t where
  crc := mmcsd_get_slice cid MMCSD_CID_MMC_CRC_SLICE.1 MMCSD_CID_MMC_CRC_SLICE.2
  mdt_y := mmcsd_get_slice cid MMCSD_CID_MMC_MDT_Y_SLICE.1 MMCSD_CID_MMC_MDT_Y_SLICE.2 + 1997
  mdt_m := mmcsd_get_slice cid MMCSD_CID_MMC_MDT_M_SLICE.1 MMCSD_CID_MMC_MDT_M_SLICE.2
  mid := mmcsd_get_slice cid MMCSD_CID_MMC_MID_SLICE.1 MMCSD_CID_MMC_MID_SLICE.2
  oid := mmcsd_get_slice cid MMCSD_CID_MMC_OID_SLICE.1 MMCSD_CID_MMC_OID_SLICE.2
  pnm := fun p =>
    match p with
    | 5 => mmcsd_get_slice cid MMCSD_CID_MMC_PNM0_SLICE.1 MMCSD_CID_MMC_PNM0_SLICE.2
    | 4 => mmcsd_get_slice cid MMCSD_CID_MMC_PNM1_SLICE.1 MMCSD_CID_MMC_PNM1_SLICE.2
    | 3 => mmcsd_get_slice cid MMCSD_CID_MMC_PNM2_SLICE.1 MMCSD_CID_MMC_PNM2_SLICE.2
    | 2 => mmcsd_get_slice cid MMCSD_CID_MMC_PNM3_SLICE.1 MMCSD_CID_MMC_PNM3_SLICE.2
    | 1 => mmcsd_get_slice cid MMCSD_CID_MMC_PNM4_SLICE.1 MMCSD_CID_MMC_PNM4_SLICE.2
    | 0 => mmcsd_get_slice cid MMCSD_CID_MMC_PNM5_SLICE.1 MMCSD_CID_MMC_PNM5_SLICE.2
    | _ => 0
  prv_n := mmcsd_get_slice cid MMCSD_CID_MMC_PRV_N_SLICE.1 MMCSD_CID_MMC_PRV_N_SLICE.2
  prv_m := mmcsd_get_slice cid MMCSD_CID_MMC_PRV_M_SLICE.1 MMCSD_CID_MMC_PRV_M_SLICE.2
  psn := mmcsd_get_slice cid MMCSD_CID_MMC_PSN_SLICE.1 MMCSD_CID_MMC_PSN_SLICE.2
/-- Bit-level characterization of the extractor: under the precondition of the
source debug check, bit `j` of the extracted value is bit `start + j` of the
buffer while `j` is within the field width, and 0 beyond it. -/
theorem get_slice_testBit (data : Nat → Nat) (e s : Nat)
    (hd : ∀ i, data i < 2 ^ 32) (hse : s ≤ e) (hw : e - s < 32) (j : Nat) :
    (mmcsd_get_slice data e s).testBit j =
      (decide (j ≤ e - s) && bufBit data (s + j)) := by
  simp only [mmcsd_get_slice]
  by_cases hidx : s / 32 < e / 32
  · have he32 : e / 32 = s / 32 + 1 := by omega
    rw [if_pos hidx]
    simp only [Nat.testBit_or, Nat.testBit_mod_two_pow, Nat.testBit_shiftLeft,
      Nat.testBit_shiftRight, Nat.testBit_and, Nat.one_shiftLeft,
      Nat.testBit_two_pow_sub_one, bufBit]
    by_cases h1 : j < 32 - s % 32
    · have hj : j ≤ e - s := by omega
      have hw1 : (s + j) / 32 = s / 32 := by omega
      have hw2 : (s + j) % 32 = s % 32 + j := by omega
      have hge : ¬ (j ≥ 32 - s % 32) := by omega
      simp [hw1, hw2, hj, hge]
    · have hA : (data (s / 32)).testBit (s % 32 + j) = false :=
        Nat.testBit_lt_two_pow
          (lt_of_lt_of_le (hd _) (Nat.pow_le_pow_right (by norm_num) (by omega)))
      by_cases h2 : j < 32
      · have hw1 : (s + j) / 32 = e / 32 := by omega
        have hw2 : (s + j) % 32 = j - (32 - s % 32) := by omega
        by_cases hj : j ≤ e - s
        · have hlt : j - (32 - s % 32) < e % 32 + 1 := by omega
          simp [hA, hw1, hw2, h2, hj, hlt, (by omega : j ≥ 32 - s % 32)]
        · have hge2 : ¬ (j - (32 - s % 32) < e % 32 + 1) := by omega
          simp [hA, hge2, hj]
      · have hj : ¬ (j ≤ e - s) := by omega
        simp [hA, h2, hj]
  · have hidx2 : e / 32 = s / 32 := by omega
    rw [if_neg hidx]
    simp only [Nat.testBit_shiftRight, Nat.testBit_and, Nat.one_shiftLeft,
      Nat.testBit_two_pow_sub_one, bufBit]
    by_cases hj : j ≤ e - s
    · have hw1 : (s + j) / 32 = s / 32 := by omega
      have hw2 : (s + j) % 32 = s % 32 + j := by omega
      have hlt : s % 32 + j < e % 32 + 1 := by omega
      simp [hw1, hw2, hj, hlt]
    · have hge : ¬ (s % 32 + j < e % 32 + 1) := by omega
      simp [hge, hj]
/-- The first `n` words of a 32-bit-word buffer are worth less than `2 ^ (32 * n)`. -/
theorem wordsVal_lt (data : Nat → Nat) (hd : ∀ i, data i < 2 ^ 32) (n : Nat) :
    wordsVal data n < 2 ^ (32 * n) := by
  induction n with
  | zero => simp [wordsVal]
  | succ n ih =>
    have h := hd n
    have hmul : data n * 2 ^ (32 * n) ≤ (2 ^ 32 - 1) * 2 ^ (32 * n) :=
      Nat.mul_le_mul_right _ (by omega)
    have hpow : 2 ^ (32 * (n + 1)) = 2 ^ 32 * 2 ^ (32 * n) := by
      rw [← Nat.pow_add]; ring_nf
    simp only [wordsVal]
    have hpos : 0 < 2 ^ (32 * n) := Nat.two_pow_pos _
    calc wordsVal data n + data n * 2 ^ (32 * n)
        < 2 ^ (32 * n) + (2 ^ 32 - 1) * 2 ^ (32 * n) := by omega
      _ = 2 ^ 32 * 2 ^ (32 * n) := by ring_nf
      _ = 2 ^ (32 * (n + 1)) := hpow.symm

/-- Bit `m` of the value of the first `n` words is bit `m` of the buffer,
provided `m` lies below bit `32 * n`. -/
theorem wordsVal_testBit (data : Nat → Nat) (hd : ∀ i, data i < 2 ^ 32)
    (n m : Nat) :
    (wordsVal data n).testBit m = (decide (m < 32 * n) && bufBit data m) := by
  induction n generalizing m with
  | zero => simp [wordsVal]
  | succ n ih =>
    have hb := wordsVal_lt data hd n
    have hrw : wordsVal data (n + 1) = 2 ^ (32 * n) * data n + wordsVal data n := by
      simp only [wordsVal]; ring
    rw [hrw, Nat.testBit_mul_pow_two_add _ hb m]
    by_cases hm : m < 32 * n
    · simp [hm, ih m, (by omega : m < 32 * (n + 1))]
    · simp only [hm, if_false]
      by_cases hm2 : m < 32 * (n + 1)
      · have h1 : m / 32 = n := by omega
        have h2 : m % 32 = m - 32 * n := by omega
        simp [bufBit, h1, h2, hm2]
      · have hbit : (data n).testBit (m - 32 * n) = false :=
          Nat.testBit_lt_two_pow
            (lt_of_lt_of_le (hd n) (Nat.pow_le_pow_right (by norm_num) (by omega)))
        simp [hbit, hm2]

/-- Claim C1: for every register buffer of 32-bit words and every slice
(`start`, `end`) with `end >= start` and `end - start < 32`,
`_mmcsd_get_slice` returns the value of the bits at offsets
`start..end` (inclusive, bit 0 the LSb of the first word) right-aligned:
the whole buffer read as one number, shifted right by `start` (placing bit
`start` at bit 0 of the result) and truncated to the field width — not
left-aligned as the legacy doc comment claims. -/
theorem mmcsd_get_slice_right_aligned (data : Nat → Nat) (e s : Nat)
    (hd : ∀ i, data i < 2 ^ 32) (hse : s ≤ e) (hw : e - s < 32) :
    mmcsd_get_slice data e s =
      (wordsVal data (e / 32 + 1) >>> s) % 2 ^ (e - s + 1) := by
  apply Nat.eq_of_testBit_eq
  intro j
  rw [get_slice_testBit data e s hd hse hw j]
  simp only [Nat.testBit_mod_two_pow, Nat.testBit_shiftRight,
    wordsVal_testBit data hd]
  by_cases hj : j ≤ e - s
  · simp [hj, (by omega : j < e - s + 1),
      (by omega : s + j < 32 * (e / 32 + 1))]
  · simp [hj]
    intro h1 h2
    exact absurd h1 (by omega)

/-- Claim C1 witness: the theorem applied to the one-word buffer holding 5
(binary 101), slice (1, 4); the extracted value is 0b0010 = 2, bit 1 of the
buffer landing at bit 0 of the result. -/
theorem mmcsd_get_slice_right_aligned_witness :
    mmcsd_get_slice (fun _ => 5) 4 1 =
      (wordsVal (fun _ => 5) (4 / 32 + 1) >>> 1) % 2 ^ (4 - 1 + 1) ∧
    mmcsd_get_slice (fun _ => 5) 4 1 = 2 :=
  ⟨mmcsd_get_slice_right_aligned (fun _ => 5) 4 1
      (fun _ => by norm_num) (by norm_num) (by norm_num),
    by decide⟩
/-- Claim C6 counterexample: for the buffer `[0x00000001, 0x00000000]` the
slice (start=31, end=32) does NOT return 1 as the claim states: buffer bits
31 and 32 are both zero, and the code returns 0. -/
theorem mmcsd_get_slice_cross_example_false :
    ¬ (mmcsd_get_slice (fun i => if i = 0 then 0x00000001 else 0x00000000)
        32 31 = 1) := by decide

/-- Claim C6 (amended): for the buffer `[0x00000001, 0x00000000]`,
`_mmcsd_get_slice` with slice (start=0, end=0) returns 1, and with slice
(start=31, end=32) — a field crossing the word boundary, taking its low bit
from word 0 bit 31 and its high bit from word 1 bit 0 — returns 0, since
both of those buffer bits are zero; on the buffer
`[0x80000000, 0x00000001]`, whose bits 31 and 32 are both one, the same
crossing slice returns 3. -/
theorem mmcsd_get_slice_examples :
    mmcsd_get_slice (fun i => if i = 0 then 0x00000001 else 0x00000000)
      0 0 = 1 ∧
    mmcsd_get_slice (fun i => if i = 0 then 0x00000001 else 0x00000000)
      32 31 = 0 ∧
    mmcsd_get_slice (fun i => if i = 0 then 0x80000000 else 0x00000001)
      32 31 = 3 := by
  refine ⟨by decide, by decide, by decide⟩

/-- Claim C10: under the precondition `end >= start`, `end - start < 32`, a
slice crossing a word boundary (`start / 32 < end / 32`) always has
`start % 32 > 0`, so the shift amount `32 - (start % 32)` of the two-piece
case lies in 1..31 and never reaches the undefined shift count 32; the
extractor takes exactly the two-piece branch there. -/
theorem mmcsd_get_slice_cross_shift_range (data : Nat → Nat) (e s : Nat)
    (hse : s ≤ e) (hw : e - s < 32) (hcross : s / 32 < e / 32) :
    0 < s % 32 ∧ 1 ≤ 32 - s % 32 ∧ 32 - s % 32 ≤ 31 ∧
    mmcsd_get_slice data e s =
      (data (s / 32) >>> (s % 32)) |||
        (((data (e / 32) &&& ((1 <<< ((e % 32) + 1)) - 1))
            <<< (32 - s % 32)) % 2 ^ 32) := by
  refine ⟨by omega, by omega, by omega, ?_⟩
  simp only [mmcsd_get_slice]
  rw [if_pos hcross]

/-- Claim C10 witness: the boundary-crossing slice (31, 32) on the zero
buffer; the shift amount is `32 - 31 = 1`. -/
theorem mmcsd_get_slice_cross_shift_range_witness :
    0 < 31 % 32 ∧ 1 ≤ 32 - 31 % 32 ∧ 32 - 31 % 32 ≤ 31 ∧
    mmcsd_get_slice (fun _ => 0) 32 31 =
      ((fun _ => 0 : Nat → Nat) (31 / 32) >>> (31 % 32)) |||
        ((((fun _ => 0 : Nat → Nat) (32 / 32) &&& ((1 <<< ((32 % 32) + 1)) - 1))
            <<< (32 - 31 % 32)) % 2 ^ 32) :=
  mmcsd_get_slice_cross_shift_range (fun _ => 0) 32 31
    (by norm_num) (by norm_num) (by norm_num)

/-- Claim C7: inserting a value that fits in `end - start + 1` bits at bit
offsets `start..end` of a zeroed buffer and extracting the same slice with
`_mmcsd_get_slice` yields the value back (extract-after-insert round-trip). -/
theorem mmcsd_get_slice_insert_roundtrip (v s e : Nat) (hse : s ≤ e)
    (hw : e - s < 32) (hv : v < 2 ^ (e - s + 1)) :
    mmcsd_get_slice (insert_slice v s) e s = v := by
  apply Nat.eq_of_testBit_eq
  intro j
  rw [get_slice_testBit (insert_slice v s) e s
    (fun i => Nat.mod_lt _ (by norm_num)) hse hw j]
  simp only [bufBit, insert_slice, Nat.testBit_mod_two_pow,
    Nat.testBit_shiftRight, Nat.testBit_shiftLeft]
  have hk : 32 * ((s + j) / 32) + (s + j) % 32 = s + j := by omega
  rw [hk]
  by_cases hj : j ≤ e - s
  · simp [hj, (by omega : (s + j) % 32 < 32), (by omega : s ≤ s + j),
      (by omega : s + j - s = j)]
  · have hbit : v.testBit j = false :=
      Nat.testBit_lt_two_pow
        (lt_of_lt_of_le hv (Nat.pow_le_pow_right (by norm_num) (by omega)))
    simp [hj, hbit]

/-- Claim C7 witness: the value 5 inserted at bit offset 33 of a zeroed
buffer (word 1 becomes 10 = 5 shifted past the word boundary) and extracted
back from slice (33, 35). -/
theorem mmcsd_get_slice_insert_roundtrip_witness :
    insert_slice 5 33 1 = 10 ∧
    mmcsd_get_slice (insert_slice 5 33) 35 33 = 5 :=
  ⟨by decide,
    mmcsd_get_slice_insert_roundtrip 5 33 35
      (by norm_num) (by norm_num) (by norm_num)⟩
/-- Claim C2: for every 4-word CSD whose 2-bit CSD-structure field (bits
126..127) decodes to 0, `_mmcsd_get_capacity` returns
`(c_size + 1) << (c_size_mult + 2) << (read_bl_len - 9)`, the fields taken
from their fixed slices, the two shifts applied left-to-right in unsigned
32-bit arithmetic (each result taken modulo `2 ^ 32`). -/
theorem mmcsd_get_capacity_v10 (csd : Nat → Nat)
    (h0 : mmcsd_get_slice csd 127 126 = 0) :
    mmcsd_get_capacity csd =
      ((((mmcsd_get_slice csd 73 62 + 1)
          <<< (mmcsd_get_slice csd 49 47 + 2)) % 2 ^ 32)
        <<< (mmcsd_get_slice csd 83 80 - 9)) % 2 ^ 32 := by
  unfold mmcsd_get_capacity
  rw [show mmcsd_get_slice csd MMCSD_CSD_10_CSD_STRUCTURE_SLICE.1
    MMCSD_CSD_10_CSD_STRUCTURE_SLICE.2 = 0 from h0]
  rfl

/-- Claim C2 witness: the CSD buffer with structure version 0, `c_size = 0`,
`c_size_mult = 0` and `read_bl_len = 9` (word 2 holds `9 << 16`); its
capacity is `(0+1) << (0+2) << 0 = 4` blocks. -/
theorem mmcsd_get_capacity_v10_witness :
    mmcsd_get_slice (fun i => if i = 2 then 0x90000 else 0) 127 126 = 0 ∧
    mmcsd_get_slice (fun i => if i = 2 then 0x90000 else 0) 83 80 = 9 ∧
    mmcsd_get_capacity (fun i => if i = 2 then 0x90000 else 0) = 4 :=
  ⟨by decide, by decide,
    (mmcsd_get_capacity_v10 (fun i => if i = 2 then 0x90000 else 0)
      (by decide)).trans (by decide)⟩

/-- Claim C3: for every 4-word CSD whose CSD-structure field decodes to 1,
`_mmcsd_get_capacity` returns `1024 * (c_size + 1)` blocks (in unsigned
32-bit arithmetic), with `c_size` extracted from the CSD 2.0 slice
(bits 48..69). -/
theorem mmcsd_get_capacity_v20 (csd : Nat → Nat)
    (h1 : mmcsd_get_slice csd 127 126 = 1) :
    mmcsd_get_capacity csd =
      (1024 * (mmcsd_get_slice csd 69 48 + 1)) % 2 ^ 32 := by
  unfold mmcsd_get_capacity
  rw [show mmcsd_get_slice csd MMCSD_CSD_10_CSD_STRUCTURE_SLICE.1
    MMCSD_CSD_10_CSD_STRUCTURE_SLICE.2 = 1 from h1]
  rfl

/-- Claim C3 witness: the CSD buffer with structure version 1 (word 3 holds
`1 << 30`) and `c_size = 0`; its capacity is `1024 * 1 = 1024` blocks. -/
theorem mmcsd_get_capacity_v20_witness :
    mmcsd_get_slice (fun i => if i = 3 then 0x40000000 else 0) 127 126 = 1 ∧
    mmcsd_get_capacity (fun i => if i = 3 then 0x40000000 else 0) = 1024 :=
  ⟨by decide,
    (mmcsd_get_capacity_v20 (fun i => if i = 3 then 0x40000000 else 0)
      (by decide)).trans (by decide)⟩

/-- Claim C4: for every 4-word CSD whose CSD-structure field decodes to a
reserved value (anything other than 0 or 1), `_mmcsd_get_capacity` returns
exactly the sentinel 0 and signals no other failure. -/
theorem mmcsd_get_capacity_reserved (csd : Nat → Nat)
    (h0 : mmcsd_get_slice csd 127 126 ≠ 0)
    (h1 : mmcsd_get_slice csd 127 126 ≠ 1) :
    mmcsd_get_capacity csd = 0 := by
  unfold mmcsd_get_capacity
  rcases hx : mmcsd_get_slice csd MMCSD_CSD_10_CSD_STRUCTURE_SLICE.1
      MMCSD_CSD_10_CSD_STRUCTURE_SLICE.2 with _ | _ | n
  · exact absurd hx h0
  · exact absurd hx h1
  · rfl

/-- Claim C4 witness: the CSD buffer with structure-version value 3 (word 3
holds `3 << 30`, a reserved value); its capacity is the sentinel 0. -/
theorem mmcsd_get_capacity_reserved_witness :
    mmcsd_get_slice (fun i => if i = 3 then 0xC0000000 else 0) 127 126 = 3 ∧
    mmcsd_get_capacity (fun i => if i = 3 then 0xC0000000 else 0) = 0 :=
  ⟨by decide,
    mmcsd_get_capacity_reserved (fun i => if i = 3 then 0xC0000000 else 0)
      (by decide) (by decide)⟩
/-- Truncation distributes over bitwise or. -/
theorem or_mod_two_pow (x y k : Nat) :
    (x ||| y) % 2 ^ k = (x % 2 ^ k) ||| (y % 2 ^ k) := by
  apply Nat.eq_of_testBit_eq
  intro j
  by_cases hj : j < k <;> simp [hj]

/-- Adding a value whose bits lie below bit `k` to a value whose bits lie at
or above bit `k` is the same as bitwise or. -/
theorem add_eq_or_of_low (x y k : Nat) (hx : x % 2 ^ k = 0) (hy : y < 2 ^ k) :
    x + y = x ||| y := by
  obtain ⟨a, rfl⟩ := Nat.dvd_of_mod_eq_zero hx
  exact Nat.mul_add_lt_is_or hy a
/-- Claim C5: for every 512-byte extended-CSD buffer,
`_mmcsd_get_capacity_ext` returns the 32-bit value
`bytes[215]<<24 | bytes[214]<<16 | bytes[213]<<8 | bytes[212]`, and the
result depends on no byte outside offsets 212..215: two buffers agreeing on
bytes 212..215 yield the same sector count. -/
theorem mmcsd_get_capacity_ext_bytes (b b2 : Nat → Nat)
    (hb : ∀ i, b i < 2 ^ 8)
    (hagree : ∀ j, 212 ≤ j → j ≤ 215 → b2 j = b j) :
    mmcsd_get_capacity_ext b =
      (b 215 <<< 24) ||| (b 214 <<< 16) ||| (b 213 <<< 8) ||| b 212 ∧
    mmcsd_get_capacity_ext b2 = mmcsd_get_capacity_ext b := by
  have h212 := hb 212
  have h213 := hb 213
  have h214 := hb 214
  have h215 := hb 215
  constructor
  · unfold mmcsd_get_capacity_ext
    simp only [Nat.shiftLeft_eq]
    have k0 : b 215 * 2 ^ 24 + b 214 * 2 ^ 16
        = b 215 * 2 ^ 24 ||| b 214 * 2 ^ 16 :=
      add_eq_or_of_low _ _ 24 (by omega) (by omega)
    have m32 : (b 215 * 2 ^ 24 ||| b 214 * 2 ^ 16) % 2 ^ 16 = 0 := by
      rw [or_mod_two_pow]
      have hm1 : b 215 * 2 ^ 24 % 2 ^ 16 = 0 := by omega
      have hm2 : b 214 * 2 ^ 16 % 2 ^ 16 = 0 := by omega
      rw [hm1, hm2]
      simp
    have k1 : (b 215 * 2 ^ 24 ||| b 214 * 2 ^ 16) + b 213 * 2 ^ 8
        = (b 215 * 2 ^ 24 ||| b 214 * 2 ^ 16) ||| b 213 * 2 ^ 8 :=
      add_eq_or_of_low _ _ 16 m32 (by omega)
    have m321 : ((b 215 * 2 ^ 24 ||| b 214 * 2 ^ 16) ||| b 213 * 2 ^ 8)
        % 2 ^ 8 = 0 := by
      rw [or_mod_two_pow, or_mod_two_pow]
      have hm1 : b 215 * 2 ^ 24 % 2 ^ 8 = 0 := by omega
      have hm2 : b 214 * 2 ^ 16 % 2 ^ 8 = 0 := by omega
      have hm3 : b 213 * 2 ^ 8 % 2 ^ 8 = 0 := by omega
      rw [hm1, hm2, hm3]
      simp
    have k2 : ((b 215 * 2 ^ 24 ||| b 214 * 2 ^ 16) ||| b 213 * 2 ^ 8) + b 212
        = ((b 215 * 2 ^ 24 ||| b 214 * 2 ^ 16) ||| b 213 * 2 ^ 8) ||| b 212 :=
      add_eq_or_of_low _ _ 8 m321 (by omega)
    have hlt : b 215 * 2 ^ 24 + b 214 * 2 ^ 16 + b 213 * 2 ^ 8 + b 212
        < 2 ^ 32 := by omega
    rw [Nat.mod_eq_of_lt hlt, k0, k1, k2]
  · unfold mmcsd_get_capacity_ext
    rw [hagree 215 (by norm_num) (by norm_num),
      hagree 214 (by norm_num) (by norm_num),
      hagree 213 (by norm_num) (by norm_num),
      hagree 212 (by norm_num) (by norm_num)]

/-- Claim C5 witness: a buffer with byte 212 equal to 1 and bytes 213..215
zero decodes to sector count 1, and a second buffer differing only at byte 0
(an offset outside 212..215) decodes to the same count. -/
theorem mmcsd_get_capacity_ext_bytes_witness :
    mmcsd_get_capacity_ext (fun i => if i = 212 then 1 else 0) = 1 ∧
    mmcsd_get_capacity_ext
        (fun i => if i = 0 then 7 else if i = 212 then 1 else 0) =
      mmcsd_get_capacity_ext (fun i => if i = 212 then 1 else 0) :=
  ⟨by decide,
    (mmcsd_get_capacity_ext_bytes
      (fun i => if i = 212 then 1 else 0)
      (fun i => if i = 0 then 7 else if i = 212 then 1 else 0)
      (fun i => by by_cases h : i = 212 <;> simp [h])
      (fun j hj1 hj2 => by
        have h0 : j ≠ 0 := by omega
        simp [h0])).2⟩
/-- A one-byte aligned slice extracts exactly that byte of the buffer. -/
theorem get_slice_byte (data : Nat → Nat) (hd : ∀ i, data i < 2 ^ 32)
    (m : Nat) :
    mmcsd_get_slice data (8 * m + 7) (8 * m) = byteAt data m := by
  apply Nat.eq_of_testBit_eq
  intro j
  rw [get_slice_testBit data (8 * m + 7) (8 * m) hd (by omega) (by omega) j]
  simp only [byteAt, Nat.testBit_mod_two_pow, Nat.testBit_shiftRight, bufBit,
    Nat.add_sub_cancel_left]
  by_cases hj : j ≤ 7
  · have h1 : (8 * m + j) / 32 = m / 4 := by omega
    have h2 : (8 * m + j) % 32 = 8 * (m % 4) + j := by omega
    simp [h1, h2, hj, (by omega : j < 8)]
  · simp [hj]
    intro h
    exact absurd h (by omega)

/-- Claim C8: for every CID buffer of 32-bit words, the SD decoder assembles
the five one-byte product-name slices into the name array in descending
order — slice index 4 (bits 96..103) at position 0 down to slice index 0
(bits 64..71) at position 4 — and the MMC decoder assembles its six one-byte
slices likewise, slice index 5 at position 0; each stored name byte equals
the exact byte of the buffer at that slice's fixed offset (byte `12 - p` at
name position `p` for both decoders). -/
theorem cid_pnm_descending_bytes (cid : Nat → Nat)
    (hd : ∀ i, cid i < 2 ^ 32) :
    (∀ p, p ≤ 4 → (_mmcsd_unpack_sdc_cid cid).pnm p = byteAt cid (12 - p)) ∧
    (∀ p, p ≤ 5 → (_mmcsd_unpack_mmc_cid cid).pnm p = byteAt cid (12 - p)) := by
  constructor
  · intro p hp
    interval_cases p
    · show mmcsd_get_slice cid 103 96 = byteAt cid 12
      simpa using get_slice_byte cid hd 12
    · show mmcsd_get_slice cid 95 88 = byteAt cid 11
      simpa using get_slice_byte cid hd 11
    · show mmcsd_get_slice cid 87 80 = byteAt cid 10
      simpa using get_slice_byte cid hd 10
    · show mmcsd_get_slice cid 79 72 = byteAt cid 9
      simpa using get_slice_byte cid hd 9
    · show mmcsd_get_slice cid 71 64 = byteAt cid 8
      simpa using get_slice_byte cid hd 8
  · intro p hp
    interval_cases p
    · show mmcsd_get_slice cid 103 96 = byteAt cid 12
      simpa using get_slice_byte cid hd 12
    · show mmcsd_get_slice cid 95 88 = byteAt cid 11
      simpa using get_slice_byte cid hd 11
    · show mmcsd_get_slice cid 87 80 = byteAt cid 10
      simpa using get_slice_byte cid hd 10
    · show mmcsd_get_slice cid 79 72 = byteAt cid 9
      simpa using get_slice_byte cid hd 9
    · show mmcsd_get_slice cid 71 64 = byteAt cid 8
      simpa using get_slice_byte cid hd 8
    · show mmcsd_get_slice cid 63 56 = byteAt cid 7
      simpa using get_slice_byte cid hd 7

/-- Claim C8 witness: the theorem applied to the buffer whose every word is
0x44434241 (bytes "ABCD" in every word); name position 0 of the SD record
holds byte 12 of the buffer, which is 0x41. -/
theorem cid_pnm_descending_bytes_witness :
    (_mmcsd_unpack_sdc_cid (fun _ => 0x44434241)).pnm 0 =
      byteAt (fun _ => 0x44434241) (12 - 0) ∧
    (_mmcsd_unpack_mmc_cid (fun _ => 0x44434241)).pnm 5 =
      byteAt (fun _ => 0x44434241) (12 - 5) ∧
    byteAt (fun _ => 0x44434241) 12 = 0x41 :=
  ⟨(cid_pnm_descending_bytes (fun _ => 0x44434241)
      (fun _ => by norm_num)).1 0 (by norm_num),
    (cid_pnm_descending_bytes (fun _ => 0x44434241)
      (fun _ => by norm_num)).2 5 (by norm_num),
    by decide⟩

/-- Claim C9: for every CID buffer, both decoders store the manufacture year
as the raw extracted year slice plus the version-specific epoch offset —
2000 for SD, 1997 for MMC — and store the manufacture month unmodified. -/
theorem cid_mdt_epoch (cid : Nat → Nat) :
    (_mmcsd_unpack_sdc_cid cid).mdt_y = mmcsd_get_slice cid 19 12 + 2000 ∧
    (_mmcsd_unpack_sdc_cid cid).mdt_m = mmcsd_get_slice cid 11 8 ∧
    (_mmcsd_unpack_mmc_cid cid).mdt_y = mmcsd_get_slice cid 11 8 + 1997 ∧
    (_mmcsd_unpack_mmc_cid cid).mdt_m = mmcsd_get_slice cid 15 12 :=
  ⟨rfl, rfl, rfl, rfl⟩
